import Mathlib

/-!
Verification development for the linkle packaging tool (two binaries:
`src/bin/nsp.rs` and `src/bin/main.rs`).

The first part embeds the ELF debug-splitting transform
`generate_debuginfo_romfs` of `nsp.rs`: a parsed ELF image (as produced by
`goblin::elf::Elf::parse`) is rewritten into a companion image in which
non-debug sections are demoted to `SHT_NOBITS` and the layout is recomputed
as header, program-header table, concatenated payload of the sections that
still carry payload, and finally the section-header table.

The second part embeds the packaging driver of `main.rs`: format-argument
dispatch, the cargo build-event loop, per-package configuration resolution,
and the NSP/NRO packaging pipelines.  External encoders and the filesystem
(which live outside the two source files) are modelled explicitly where the
spec describes them.

Machine integers are modelled as `Nat`; the byte-level serialisation done by
`scroll`/`goblin` (`iowrite_with`) is modelled by explicit little/big-endian
byte encoders, where truncation of a field to its serialised width happens
through `% 256` on each emitted byte.
-/

namespace Linkle

/-! ## ELF data model (mirroring goblin's unified types) -/

/-- Section type constant `SHT_SYMTAB` from `goblin::elf::section_header`. -/
def SHT_SYMTAB : Nat := 2

/-- Section type constant `SHT_STRTAB` from `goblin::elf::section_header`. -/
def SHT_STRTAB : Nat := 3

/-- Section type constant `SHT_NOBITS` from `goblin::elf::section_header`. -/
def SHT_NOBITS : Nat := 8

/-- goblin's unified `elf::Header` struct (field for field). -/
structure ElfHeader where
  e_ident : List Nat
  e_type : Nat
  e_machine : Nat
  e_version : Nat
  e_entry : Nat
  e_phoff : Nat
  e_shoff : Nat
  e_flags : Nat
  e_ehsize : Nat
  e_phentsize : Nat
  e_phnum : Nat
  e_shentsize : Nat
  e_shnum : Nat
  e_shstrndx : Nat
deriving DecidableEq, Inhabited

/-- goblin's unified `elf::ProgramHeader` struct (field for field). -/
structure ProgramHeader where
  p_type : Nat
  p_flags : Nat
  p_offset : Nat
  p_vaddr : Nat
  p_paddr : Nat
  p_filesz : Nat
  p_memsz : Nat
  p_align : Nat
deriving DecidableEq, Inhabited

/-- goblin's unified `elf::SectionHeader` struct (field for field). -/
structure SectionHeader where
  sh_name : Nat
  sh_type : Nat
  sh_flags : Nat
  sh_addr : Nat
  sh_offset : Nat
  sh_size : Nat
  sh_link : Nat
  sh_info : Nat
  sh_addralign : Nat
  sh_entsize : Nat
deriving DecidableEq, Inhabited

/-- The result of `goblin::elf::Elf::parse` on the input buffer, restricted to
the fields `generate_debuginfo_romfs` destructures, together with the raw
input bytes.  `shdr_strtab` models `elf.shdr_strtab.get`: the Rust call
returns `Option<Result<&str>>` and the splitter acts only on `Some(Ok(_))`,
so `None` here stands for both an out-of-range index and a non-UTF-8 name. -/
structure Elf where
  header : ElfHeader
  program_headers : List ProgramHeader
  section_headers : List SectionHeader
  is_64 : Bool
  little_endian : Bool
  shdr_strtab : Nat → Option String
  buffer : List Nat

/-! ## Serialised sizes (goblin `SizeWith` under a container context) -/

/-- `ElfHeader::size(&ctx)`: 52 bytes for 32-bit containers, 64 for 64-bit. -/
def ehdrSize (is64 : Bool) : Nat := if is64 then 64 else 52

/-- `ProgramHeader::size(&ctx)`: 32 bytes for 32-bit containers, 56 for 64-bit. -/
def phdrSize (is64 : Bool) : Nat := if is64 then 56 else 32

/-- `SectionHeader::size(&ctx)`: 40 bytes for 32-bit containers, 64 for 64-bit. -/
def shdrSize (is64 : Bool) : Nat := if is64 then 64 else 40

/-- `::std::mem::size_of::<ElfHeader>()` for goblin's unified `Header` struct:
16 (ident) + 2 + 2 + 4 + 3 * 8 (entry/phoff/shoff as u64) + 4 + 6 * 2 = 64,
with no padding under 8-byte alignment.  Note this is the in-memory size of
the unified struct, independent of the container width. -/
def elfHeaderMemSize : Nat := 64

/-! ## Section classification (`nsp.rs` lines 145-157) -/

/-- Rust's `str::starts_with(pat)`: the pattern's characters are a prefix of
the string's characters (equivalent to byte-prefix on valid UTF-8). -/
def strStartsWith (s pat : String) : Bool := pat.data.isPrefixOf s.data

/-- One iteration of the classification loop: a section keeps its type if it
already is `SHT_NOBITS` or is a symbol/string table; otherwise, if its name
resolves in the section-name string table and neither starts with `.debug`
nor equals `.comment`, it is retyped to `SHT_NOBITS`.  A section whose name
does not resolve (`shdr_strtab.get` not returning `Some(Ok(_))`) is left
untouched. -/
def classifySection (strtab : Nat → Option String) (s : SectionHeader) : SectionHeader :=
  if s.sh_type = SHT_NOBITS ∨ s.sh_type = SHT_SYMTAB ∨ s.sh_type = SHT_STRTAB then
    s
  else
    match strtab s.sh_name with
    | some n =>
        if !(strStartsWith n ".debug" || n == ".comment") then
          { s with sh_type := SHT_NOBITS }
        else s
    | none => s

/-- The classification loop applied to every section header in order. -/
def classifySections (strtab : Nat → Option String) (shs : List SectionHeader) :
    List SectionHeader :=
  shs.map (classifySection strtab)

/-! ## Layout computation (`nsp.rs` lines 159-171) -/

/-- `data_off`: ELF header size plus program-header table size, both under the
parse context. -/
def dataOff (elf : Elf) : Nat :=
  ehdrSize elf.is_64 + phdrSize elf.is_64 * elf.program_headers.length

/-- The summed `sh_size` of the sections that still carry payload
(`sh_type != SHT_NOBITS`), exactly as the `map`/`sum` in the source. -/
def keepPayloadSize (shs : List SectionHeader) : Nat :=
  (shs.map fun v => if v.sh_type ≠ SHT_NOBITS then v.sh_size else 0).sum

/-! ## Section data writing (`nsp.rs` lines 184-195)

The loop iterates over the classified section headers, and for every section
with `sh_type != SHT_NOBITS` copies `buffer[sh_offset..sh_offset + sh_size]`
to the output and overwrites `sh_offset` with the current output position.
The Rust slice indexing panics when the range reaches past the end of the
buffer; that panic is modelled by `none`. -/
def writeSectionData (buffer : List Nat) :
    Nat → List SectionHeader → Option (List Nat × List SectionHeader)
  | _, [] => some ([], [])
  | curIdx, s :: rest =>
    if s.sh_type ≠ SHT_NOBITS then
      if s.sh_offset + s.sh_size ≤ buffer.length then
        match writeSectionData buffer (curIdx + s.sh_size) rest with
        | some (bs, ss) =>
            some ((buffer.drop s.sh_offset).take s.sh_size ++ bs,
                  { s with sh_offset := curIdx } :: ss)
        | none => none
      else none
    else
      match writeSectionData buffer curIdx rest with
      | some (bs, ss) => some (bs, s :: ss)
      | none => none

/-! ## Byte-level serialisation (`iowrite_with` under the parse context) -/

/-- Encode `v`'s lowest `w` bytes, little endian when `le`, big endian
otherwise.  Each emitted byte is reduced `% 256`, so the value is implicitly
truncated to the field width, as the `as u32`-style casts in goblin's
conversion to the 32-bit record layouts do. -/
def encodeWord (le : Bool) (w v : Nat) : List Nat :=
  let bytes := (List.range w).map fun i => v / 256 ^ i % 256
  if le then bytes else bytes.reverse

/-- Serialise an ELF header under the container context: the 16 ident bytes,
then each field at its ELF32/ELF64 width. -/
def encodeElfHeader (is64 le : Bool) (h : ElfHeader) : List Nat :=
  (h.e_ident ++ List.replicate 16 0).take 16
    ++ encodeWord le 2 h.e_type
    ++ encodeWord le 2 h.e_machine
    ++ encodeWord le 4 h.e_version
    ++ (if is64 then
          encodeWord le 8 h.e_entry ++ encodeWord le 8 h.e_phoff ++ encodeWord le 8 h.e_shoff
        else
          encodeWord le 4 h.e_entry ++ encodeWord le 4 h.e_phoff ++ encodeWord le 4 h.e_shoff)
    ++ encodeWord le 4 h.e_flags
    ++ encodeWord le 2 h.e_ehsize
    ++ encodeWord le 2 h.e_phentsize
    ++ encodeWord le 2 h.e_phnum
    ++ encodeWord le 2 h.e_shentsize
    ++ encodeWord le 2 h.e_shnum
    ++ encodeWord le 2 h.e_shstrndx

/-- Serialise a program header under the container context.  In the ELF32
record layout `p_flags` sits between `p_memsz` and `p_align`; in ELF64 it
comes right after `p_type`. -/
def encodeProgramHeader (is64 le : Bool) (p : ProgramHeader) : List Nat :=
  if is64 then
    encodeWord le 4 p.p_type ++ encodeWord le 4 p.p_flags
      ++ encodeWord le 8 p.p_offset ++ encodeWord le 8 p.p_vaddr
      ++ encodeWord le 8 p.p_paddr ++ encodeWord le 8 p.p_filesz
      ++ encodeWord le 8 p.p_memsz ++ encodeWord le 8 p.p_align
  else
    encodeWord le 4 p.p_type ++ encodeWord le 4 p.p_offset
      ++ encodeWord le 4 p.p_vaddr ++ encodeWord le 4 p.p_paddr
      ++ encodeWord le 4 p.p_filesz ++ encodeWord le 4 p.p_memsz
      ++ encodeWord le 4 p.p_flags ++ encodeWord le 4 p.p_align

/-- Serialise a section header under the container context. -/
def encodeSectionHeader (is64 le : Bool) (s : SectionHeader) : List Nat :=
  if is64 then
    encodeWord le 4 s.sh_name ++ encodeWord le 4 s.sh_type
      ++ encodeWord le 8 s.sh_flags ++ encodeWord le 8 s.sh_addr
      ++ encodeWord le 8 s.sh_offset ++ encodeWord le 8 s.sh_size
      ++ encodeWord le 4 s.sh_link ++ encodeWord le 4 s.sh_info
      ++ encodeWord le 8 s.sh_addralign ++ encodeWord le 8 s.sh_entsize
  else
    encodeWord le 4 s.sh_name ++ encodeWord le 4 s.sh_type
      ++ encodeWord le 4 s.sh_flags ++ encodeWord le 4 s.sh_addr
      ++ encodeWord le 4 s.sh_offset ++ encodeWord le 4 s.sh_size
      ++ encodeWord le 4 s.sh_link ++ encodeWord le 4 s.sh_info
      ++ encodeWord le 4 s.sh_addralign ++ encodeWord le 4 s.sh_entsize

/-! ## The debug-splitting transform (`generate_debuginfo_romfs`, ELF part) -/

/-- The in-memory result of the ELF rewrite: the updated header, the program
headers written after it, the final (offset-rewritten) section headers, and
the bytes of the `.debug` output file in write order. -/
structure DebugSplit where
  header : ElfHeader
  programHeaders : List ProgramHeader
  sectionHeaders : List SectionHeader
  fileBytes : List Nat
deriving DecidableEq, Inhabited

/-- The ELF rewrite inside `generate_debuginfo_romfs` (`nsp.rs` lines
119-204): classify sections, compute `data_off` and `shoff`, set
`e_phoff` to `::std::mem::size_of::<ElfHeader>()` and `e_shoff` to `shoff`,
then emit the header, the program headers verbatim, the payload of the
non-`SHT_NOBITS` sections (rewriting their `sh_offset`), and the section
headers.  `none` models the slice-indexing panic of the copy loop. -/
def generateDebugElf (elf : Elf) : Option DebugSplit :=
  let classified := classifySections elf.shdr_strtab elf.section_headers
  let off := dataOff elf
  let shoff := off + keepPayloadSize classified
  let header := { elf.header with e_phoff := elfHeaderMemSize, e_shoff := shoff }
  match writeSectionData elf.buffer off classified with
  | some (payload, finalSections) =>
      some
        { header := header
          programHeaders := elf.program_headers
          sectionHeaders := finalSections
          fileBytes :=
            encodeElfHeader elf.is_64 elf.little_endian header
              ++ elf.program_headers.flatMap (encodeProgramHeader elf.is_64 elf.little_endian)
              ++ payload
              ++ finalSections.flatMap (encodeSectionHeader elf.is_64 elf.little_endian) }
  | none => none

/-! ## Packaging driver data model (`main.rs`) -/

/-- `NacpFile` (application-metadata record) from the library crate.  Its
contents are opaque to the driver: it is deserialised from package metadata
and handed to the NRO encoder unchanged. -/
structure NacpFile where
  mk ::
deriving DecidableEq, Inhabited

/-- `NspMetadata` (`main.rs` lines 70-73); `Default` gives `npdm = ""`. -/
structure NspMetadata where
  npdm : String
deriving DecidableEq, Inhabited

/-- `NroMetadata` (`main.rs` lines 75-80); `Default` gives three `None`s. -/
structure NroMetadata where
  romfs : Option String
  icon : Option String
  nacp : Option NacpFile
deriving DecidableEq, Inhabited

/-- A parsed NPDM descriptor (`NpdmJson`).  The driver only threads it to the
encoder, so it is opaque here. -/
structure NpdmJson where
  mk ::
deriving DecidableEq, Inhabited

/-- An asset-filesystem image (`RomFs`) built from a directory. -/
structure RomFs where
  sourceDir : String
deriving DecidableEq, Inhabited

/-- A `cargo_metadata` package, restricted to what the driver reads: its id,
the directory of its manifest, and the packaging configuration found at the
fixed metadata lookup paths `/sprinkle/nsp` and `/sprinkle/nro`.  A `none`
configuration covers both an absent pointer target and a value that fails to
deserialise - either way `serde_json::from_value(...).unwrap_or_default()`
yields the all-default record. -/
structure Package where
  id : String
  manifestDir : String
  metadataNsp : Option NspMetadata
  metadataNro : Option NroMetadata
deriving DecidableEq, Inhabited

/-- A `CompilerArtifact` build event's payload: owning package id, target
kinds, target name, and output paths. -/
structure CompilerArtifact where
  package_id : String
  target_kind : List String
  target_name : String
  filenames : List String
deriving DecidableEq, Inhabited

/-- A parsed `cargo_metadata::Message` as matched by the event loop. -/
inductive Message where
  | compilerArtifact (a : CompilerArtifact)
  | compilerMessage (rendered : Option String) (raw : String)
  | other
deriving DecidableEq, Inhabited

/-- `Format` (`main.rs` lines 105-108). -/
inductive Format where
  | nsp
  | nro
deriving DecidableEq, Inhabited

/-- Modelled from the spec: the filesystem and the library-crate encoders
(`NpdmJson::from_file`, `NxoFile::from_elf`, `RomFs::from_directory`) are
outside the two driver source files.  `npdmAt` gives the parseable descriptor
at a path, if any (`from_file` fails otherwise); `dirExists` says whether an
asset directory can be read (`from_directory` fails otherwise); `elfValid`
says whether the artifact at a path parses as an ELF image
(`from_elf` fails otherwise). -/
structure Filesystem where
  npdmAt : String → Option NpdmJson
  dirExists : String → Bool
  elfValid : String → Bool

/-- Observable side effects of the driver, in program order. -/
inductive Effect where
  | queryManifest
  | printLine (s : String)
  | spawnToolchain (args : List String)
  | removeDirAll (p : String)
  | createDir (p : String)
  | writeFile (p : String)
deriving DecidableEq, Inhabited

/-- Driver-fatal outcomes: the usage panic of the format dispatch, or a
panic inside a packaging pipeline (an `unwrap` on a failed step). -/
inductive MainError where
  | usage (msg : String)
  | pipelinePanic
deriving DecidableEq, Inhabited

/-- A successfully packaged artifact as reported by the driver. -/
inductive Built where
  | nsp (path : String)
  | nro (path : String) (romfs : Option RomFs) (icon : Option String) (nacp : Option NacpFile)
deriving DecidableEq, Inhabited

/-! ## Path helpers (std `Path` operations the driver uses) -/

/-- `Path::join`: the paths the driver joins are relative fragments, so this
is plain separator concatenation (note `root.join("")` yields a path that
ends in the separator, exactly as `PathBuf::join("")` does). -/
def pathJoin (a b : String) : String := a ++ "/" ++ b

/-- The final path component (Rust `Path::file_name`, for paths not ending
in a separator). -/
def fileNameChars (p : String) : List Char :=
  (p.toList.reverse.takeWhile fun c => c ≠ ('/')).reverse

/-- `Path::parent` rendered as a string (everything before the final
separator; the driver unwraps a present parent). -/
def parentDir (p : String) : String :=
  String.mk ((p.toList.reverse.dropWhile fun c => c ≠ ('/')).drop 1).reverse

/-- Drop the extension of a file-name character list, Rust style: the
extension is what follows the last dot, unless the only dot is the leading
character. -/
def dropExtension (name : List Char) : List Char :=
  if (name.drop 1).contains ('.') then
    ((name.reverse.dropWhile fun c => c ≠ ('.')).drop 1).reverse
  else name

/-- `PathBuf::set_extension(ext)` for a path with a file name: replace (or
append) the final component's extension. -/
def setExtension (p ext : String) : String :=
  let cs := p.toList
  let name := fileNameChars p
  String.mk (cs.take (cs.length - name.length) ++ dropExtension name ++ ('.') :: ext.toList)

/-! ## Configuration resolution (`main.rs` lines 175-182 and 218-225) -/

/-- `serde_json::from_value(metadata.pointer("/sprinkle/nsp")...).unwrap_or_default()`. -/
def resolveNspConfig (pkg : Package) : NspMetadata :=
  pkg.metadataNsp.getD { npdm := "" }

/-- `serde_json::from_value(metadata.pointer("/sprinkle/nro")...).unwrap_or_default()`. -/
def resolveNroConfig (pkg : Package) : NroMetadata :=
  pkg.metadataNro.getD { romfs := none, icon := none, nacp := none }

/-! ## The two packaging pipelines (`main.rs` lines 174-216 and 217-245) -/

/-- The `Format::NSP` arm: reset the `exefs` staging directory, load the
NPDM descriptor from `root.join(cfg.npdm)` (panics when it cannot be
loaded), encode it to `exefs/main.npdm`, convert the ELF to an NSO at
`exefs/main` (panics when the image does not parse), pack the staging
directory into `<artifact>.nsp`, and report it.  `none` models a panic. -/
def nspPipeline (fs : Filesystem) (pkg : Package) (a : CompilerArtifact) :
    List Effect × Option Built :=
  let cfg := resolveNspConfig pkg
  match a.filenames.head? with
  | none => ([], none)
  | some file0 =>
    let exefsDir := pathJoin (parentDir file0) "exefs"
    let fx0 := [Effect.removeDirAll exefsDir, Effect.createDir exefsDir]
    let mainNpdm := pathJoin exefsDir "main.npdm"
    let mainExe := pathJoin exefsDir "main"
    let exefsNsp := setExtension file0 "nsp"
    match fs.npdmAt (pathJoin pkg.manifestDir cfg.npdm) with
    | none => (fx0, none)
    | some _ =>
      if fs.elfValid file0 then
        (fx0 ++ [Effect.writeFile mainNpdm, Effect.writeFile mainExe,
                 Effect.writeFile exefsNsp,
                 Effect.printLine ("Built " ++ exefsNsp)],
         some (Built.nsp exefsNsp))
      else (fx0 ++ [Effect.writeFile mainNpdm], none)

/-- The `Format::NRO` arm: optionally build the asset filesystem from the
configured directory (panics when the directory cannot be read), resolve the
optional icon path, convert the ELF to an NRO with the optional embedded
romfs/icon/nacp (panics when the image does not parse), and report it. -/
def nroPipeline (fs : Filesystem) (pkg : Package) (a : CompilerArtifact) :
    List Effect × Option Built :=
  let cfg := resolveNroConfig pkg
  match a.filenames.head? with
  | none => ([], none)
  | some file0 =>
    let nroPath := setExtension file0 "nro"
    let romfsRes : Option (Option RomFs) :=
      match cfg.romfs with
      | none => some none
      | some d =>
          if fs.dirExists (pathJoin pkg.manifestDir d) then
            some (some { sourceDir := pathJoin pkg.manifestDir d })
          else none
    match romfsRes with
    | none => ([], none)
    | some romfs =>
      let icon := cfg.icon.map fun i => pathJoin pkg.manifestDir i
      if fs.elfValid file0 then
        ([Effect.writeFile nroPath, Effect.printLine ("Built " ++ nroPath)],
         some (Built.nro nroPath romfs icon cfg.nacp))
      else ([], none)

/-- Dispatch on the selected output format. -/
def runPipeline (fs : Filesystem) (fmt : Format) (pkg : Package) (a : CompilerArtifact) :
    List Effect × Option Built :=
  match fmt with
  | .nsp => nspPipeline fs pkg a
  | .nro => nroPipeline fs pkg a

/-! ## The build-event loop (`main.rs` lines 156-263) -/

/-- What the event loop decides for one parsed message: package the artifact
against its owning package, or do nothing.  An artifact event qualifies when
its target kind contains "bin" or "cdylib"; a qualifying event whose
`package_id` matches no known package falls to the `None => continue` arm. -/
inductive StepAction where
  | package (pkg : Package) (a : CompilerArtifact)
  | skip
deriving DecidableEq

/-- The match of the event loop, minus the packaging work itself. -/
def stepAction (pkgs : List Package) (m : Message) : StepAction :=
  match m with
  | .compilerArtifact a =>
      if a.target_kind.contains "bin" || a.target_kind.contains "cdylib" then
        match pkgs.find? (fun p => p.id == a.package_id) with
        | some pkg => .package pkg a
        | none => .skip
      else .skip
  | _ => .skip

/-- The console output of the non-packaging arms: a compiler message prints
its rendered text when present, its debug rendering otherwise; artifact and
other events print nothing. -/
def printEffectsOf : Message → List Effect
  | .compilerMessage (some s) _ => [.printLine s]
  | .compilerMessage none raw => [.printLine raw]
  | _ => []

/-- The event loop: process each parsed message in order; a qualifying
artifact with a known package runs the selected pipeline, and a pipeline
panic aborts the whole run. -/
def processLoop (fs : Filesystem) (fmt : Format) (pkgs : List Package) :
    List Message → List Effect × Except MainError (List Built)
  | [] => ([], .ok [])
  | m :: rest =>
    match stepAction pkgs m with
    | .skip =>
        let r := processLoop fs fmt pkgs rest
        (printEffectsOf m ++ r.1, r.2)
    | .package pkg a =>
        match runPipeline fs fmt pkg a with
        | (fx, some b) =>
            let r := processLoop fs fmt pkgs rest
            (printEffectsOf m ++ fx ++ r.1, r.2.map fun bs => b :: bs)
        | (fx, none) => (printEffectsOf m ++ fx, .error .pipelinePanic)

/-! ## Format dispatch and the driver entry point (`main.rs` lines 110-156) -/

/-- The banner printed inside the accepted match arms. -/
def formatBanner : Format → String
  | .nsp => "Building NSP sysmodule..."
  | .nro => "Building NRO binary..."

/-- The format-argument match on `env::args().nth(1)` (`main.rs` lines
113-126): exactly "nsp" and "nro" are accepted; anything else, or a missing
argument, is a usage panic. -/
def selectFormat : Option String → Except String Format
  | none => .error "No format argument was specified"
  | some fmt =>
      if fmt = "nsp" then .ok .nsp
      else if fmt = "nro" then .ok .nro
      else .error "Unknown format type (available types: nsp, nro)"

/-- The fixed xargo invocation: `build`, the target triple, the JSON message
format, then every remaining command-line argument forwarded verbatim. -/
def xargoArgs (argv : List String) : List String :=
  ["build", "--target=aarch64-none-elf", "--message-format=json-diagnostic-rendered-ansi"]
    ++ argv.drop 2

/-- The driver: query the workspace manifest, parse the format argument
(usage panic before anything else happens on a bad or missing argument),
print the banner, spawn the toolchain, then consume its event stream.
`argv` is the full argument vector including the program name, so the format
argument is `argv.get? 1`. -/
def mainRun (argv : List String) (pkgs : List Package) (fs : Filesystem)
    (msgs : List Message) : List Effect × Except MainError (List Built) :=
  match selectFormat (argv.get? 1) with
  | .error e => ([Effect.queryManifest], .error (.usage e))
  | .ok fmt =>
      let r := processLoop fs fmt pkgs msgs
      ([Effect.queryManifest, Effect.printLine (formatBanner fmt),
        Effect.spawnToolchain (xargoArgs argv)] ++ r.1, r.2)

/-! ## Field-equality relations on section headers -/

/-- All section-header fields agree except possibly `sh_type`. -/
def sameExceptType (a b : SectionHeader) : Prop :=
  a.sh_name = b.sh_name ∧ a.sh_flags = b.sh_flags ∧ a.sh_addr = b.sh_addr
    ∧ a.sh_offset = b.sh_offset ∧ a.sh_size = b.sh_size ∧ a.sh_link = b.sh_link
    ∧ a.sh_info = b.sh_info ∧ a.sh_addralign = b.sh_addralign ∧ a.sh_entsize = b.sh_entsize

/-- All section-header fields agree except possibly `sh_offset`. -/
def sameExceptOffset (a b : SectionHeader) : Prop :=
  a.sh_name = b.sh_name ∧ a.sh_type = b.sh_type ∧ a.sh_flags = b.sh_flags
    ∧ a.sh_addr = b.sh_addr ∧ a.sh_size = b.sh_size ∧ a.sh_link = b.sh_link
    ∧ a.sh_info = b.sh_info ∧ a.sh_addralign = b.sh_addralign ∧ a.sh_entsize = b.sh_entsize

/-- All section-header fields agree except possibly `sh_type` and `sh_offset`. -/
def sameExceptTypeOffset (a b : SectionHeader) : Prop :=
  a.sh_name = b.sh_name ∧ a.sh_flags = b.sh_flags ∧ a.sh_addr = b.sh_addr
    ∧ a.sh_size = b.sh_size ∧ a.sh_link = b.sh_link ∧ a.sh_info = b.sh_info
    ∧ a.sh_addralign = b.sh_addralign ∧ a.sh_entsize = b.sh_entsize

/-! ## The spec's classification predicate, in the spec's words

The spec says a section is KEEP exactly when it already has the no-payload
type, is a symbol or string table, or its name starts with ".debug" or
equals ".comment"; every other section is demoted to the no-payload type. -/

/-- The spec's KEEP condition for one section (its name read through the
section-name string table). -/
def specKeepCond (strtab : Nat → Option String) (s : SectionHeader) : Prop :=
  s.sh_type = SHT_NOBITS ∨ s.sh_type = SHT_SYMTAB ∨ s.sh_type = SHT_STRTAB ∨
    ∃ n, strtab s.sh_name = some n ∧ (strStartsWith n ".debug" = true ∨ n = ".comment")

/-- Boolean form of `specKeepCond` (used to write the spec's sums). -/
def specKeepB (strtab : Nat → Option String) (s : SectionHeader) : Bool :=
  (s.sh_type == SHT_NOBITS || s.sh_type == SHT_SYMTAB || s.sh_type == SHT_STRTAB)
    || (match strtab s.sh_name with
        | some n => strStartsWith n ".debug" || n == ".comment"
        | none => false)

/-- The spec's "sum of KEEP sections' sizes", over the input sections. -/
def specKeepSizeSum (strtab : Nat → Option String) (shs : List SectionHeader) : Nat :=
  (shs.map fun s => if specKeepB strtab s then s.sh_size else 0).sum

/-- Claim C1 as stated: in original order, a section is kept unchanged when
the spec's KEEP condition holds, and every section not satisfying it is
demoted by retyping to the no-payload type. -/
def specClassifyClaim : Prop :=
  ∀ (strtab : Nat → Option String) (shs : List SectionHeader),
    ∀ p ∈ shs.zip (classifySections strtab shs),
      (specKeepCond strtab p.1 → p.2 = p.1)
      ∧ (¬ specKeepCond strtab p.1 → p.2 = { p.1 with sh_type := SHT_NOBITS })

/-- Claim C2 as stated: for every valid input image of any width and
endianness, the output's program-header-table offset field points at the
table written immediately after the header, and the section-header-table
offset field equals header size + program-header-table size + the sum of
KEEP sections' sizes in original order. -/
def specTableOffsetsClaim : Prop :=
  ∀ (elf : Elf) (ds : DebugSplit), generateDebugElf elf = some ds →
    ds.header.e_phoff = ehdrSize elf.is_64
    ∧ ds.header.e_shoff =
        ehdrSize elf.is_64 + phdrSize elf.is_64 * elf.program_headers.length
          + specKeepSizeSum elf.shdr_strtab elf.section_headers

/-- Claim C6 as stated: for a qualifying artifact (it has an output file
whose image converts) whose package carries no configuration at the fixed
lookup path, configuration resolves to all-defaults and packaging proceeds
without failure - the NRO pipeline completes embedding no asset filesystem,
and the NSP pipeline also completes. -/
def specMissingConfigClaim : Prop :=
  ∀ (fs : Filesystem) (pkg : Package) (a : CompilerArtifact) (file0 : String),
    a.filenames.head? = some file0 → fs.elfValid file0 = true →
    (pkg.metadataNro = none →
      resolveNroConfig pkg = { romfs := none, icon := none, nacp := none }
      ∧ ∃ path icon nacp, (nroPipeline fs pkg a).2 = some (Built.nro path none icon nacp))
    ∧ (pkg.metadataNsp = none →
      resolveNspConfig pkg = { npdm := "" }
      ∧ ∃ b, (nspPipeline fs pkg a).2 = some b)

/-! ## Concrete images and driver inputs used by witnesses and counterexamples -/

/-- A string table resolving no index at all. -/
def strtabNone : Nat → Option String := fun _ => none

/-- A `PROGBITS` section whose name index resolves to nothing. -/
def cexSec : SectionHeader :=
  { sh_name := 5, sh_type := 1, sh_flags := 0, sh_addr := 0, sh_offset := 0,
    sh_size := 0, sh_link := 0, sh_info := 0, sh_addralign := 0, sh_entsize := 0 }

/-- Example section-name string table. -/
def exStrtab : Nat → Option String :=
  fun n => if n = 0 then some ".text" else if n = 6 then some ".debug_i" else none

/-- Example `.text` section (gets demoted). -/
def exSec0 : SectionHeader :=
  { sh_name := 0, sh_type := 1, sh_flags := 6, sh_addr := 7, sh_offset := 0,
    sh_size := 4, sh_link := 1, sh_info := 2, sh_addralign := 4, sh_entsize := 0 }

/-- Example `.debug_i` section (kept, payload copied). -/
def exSec1 : SectionHeader :=
  { sh_name := 6, sh_type := 1, sh_flags := 0, sh_addr := 0, sh_offset := 4,
    sh_size := 4, sh_link := 0, sh_info := 0, sh_addralign := 1, sh_entsize := 0 }

/-- Example `SHT_NOBITS` section (kept untouched, contributes nothing). -/
def exSec2 : SectionHeader :=
  { sh_name := 3, sh_type := 8, sh_flags := 3, sh_addr := 9, sh_offset := 12,
    sh_size := 100, sh_link := 0, sh_info := 0, sh_addralign := 8, sh_entsize := 0 }

/-- `exSec0` after demotion (also its output header: offset untouched). -/
def exSec0D : SectionHeader := { exSec0 with sh_type := SHT_NOBITS }

/-- `exSec1`'s output header: payload relocated to `data_off` = 64 + 56. -/
def exSec1F : SectionHeader := { exSec1 with sh_offset := 120 }

/-- Example 64-bit ELF header. -/
def exHeader : ElfHeader :=
  { e_ident := [127, 69, 76, 70, 2, 1, 1, 0, 0, 0, 0, 0, 0, 0, 0, 0],
    e_type := 2, e_machine := 183, e_version := 1, e_entry := 0, e_phoff := 64,
    e_shoff := 0, e_flags := 0, e_ehsize := 64, e_phentsize := 56, e_phnum := 1,
    e_shentsize := 64, e_shnum := 3, e_shstrndx := 2 }

/-- Example program header. -/
def exPhdr : ProgramHeader :=
  { p_type := 1, p_flags := 5, p_offset := 0, p_vaddr := 0, p_paddr := 0,
    p_filesz := 8, p_memsz := 8, p_align := 4096 }

/-- Example 64-bit little-endian input image with a demoted `.text`, a kept
`.debug_i` and a kept `SHT_NOBITS` section. -/
def exElf : Elf :=
  { header := exHeader, program_headers := [exPhdr],
    section_headers := [exSec0, exSec1, exSec2],
    is_64 := true, little_endian := true,
    shdr_strtab := exStrtab,
    buffer := [0, 1, 2, 3, 4, 5, 6, 7, 8, 9, 10, 11, 12, 13, 14, 15] }

/-- The splitter's output on `exElf`. -/
def exDs : DebugSplit := (generateDebugElf exElf).getD default

/-- Example 32-bit ELF header. -/
def cexHeader32 : ElfHeader :=
  { e_ident := [127, 69, 76, 70, 1, 1, 1, 0, 0, 0, 0, 0, 0, 0, 0, 0],
    e_type := 2, e_machine := 40, e_version := 1, e_entry := 0, e_phoff := 52,
    e_shoff := 0, e_flags := 0, e_ehsize := 52, e_phentsize := 32, e_phnum := 0,
    e_shentsize := 40, e_shnum := 1, e_shstrndx := 0 }

/-- A `SHT_NOBITS` section with a non-zero declared size (think `.bss`). -/
def cexBss : SectionHeader :=
  { sh_name := 1, sh_type := 8, sh_flags := 3, sh_addr := 0, sh_offset := 0,
    sh_size := 16, sh_link := 0, sh_info := 0, sh_addralign := 4, sh_entsize := 0 }

/-- A 32-bit little-endian input image with one non-empty `SHT_NOBITS`
section. -/
def cex32 : Elf :=
  { header := cexHeader32, program_headers := [], section_headers := [cexBss],
    is_64 := false, little_endian := true, shdr_strtab := strtabNone,
    buffer := [] }

/-- The splitter's output on `cex32`. -/
def cexDs32 : DebugSplit := (generateDebugElf cex32).getD default

/-- A symbol-table section whose declared range reaches past the buffer. -/
def oobSec : SectionHeader :=
  { sh_name := 0, sh_type := 2, sh_flags := 0, sh_addr := 0, sh_offset := 10,
    sh_size := 10, sh_link := 0, sh_info := 0, sh_addralign := 8, sh_entsize := 24 }

/-- An input image whose only kept section reads out of range: its 5-byte
buffer cannot satisfy the 10..20 slice. -/
def oobElf : Elf :=
  { header := exHeader, program_headers := [], section_headers := [oobSec],
    is_64 := true, little_endian := true, shdr_strtab := strtabNone,
    buffer := [0, 1, 2, 3, 4] }

/-- Example package with no packaging configuration at either lookup path. -/
def exPkg : Package :=
  { id := "app 0.1.0 (path+file:///ws/app)", manifestDir := "/ws/app",
    metadataNsp := none, metadataNro := none }

/-- The example artifact's output path. -/
def exFile0 : String := "/ws/target/aarch64/app.elf"

/-- A qualifying artifact event payload owned by `exPkg`. -/
def exQualArtifact : CompilerArtifact :=
  { package_id := "app 0.1.0 (path+file:///ws/app)", target_kind := ["bin"],
    target_name := "app", filenames := [exFile0] }

/-- A qualifying artifact event payload whose package id is unknown. -/
def exUnknownArtifact : CompilerArtifact :=
  { package_id := "dep 0.2.0 (registry)", target_kind := ["bin"],
    target_name := "dep", filenames := ["/ws/target/aarch64/dep.elf"] }

/-- A filesystem with no descriptor files and no asset directories, on which
every artifact image parses. -/
def exFsEmpty : Filesystem :=
  { npdmAt := fun _ => none, dirExists := fun _ => false, elfValid := fun _ => true }

/-- An argument vector whose format argument is unrecognized. -/
def exArgvBad : List String := ["linkle", "elf"]

/-! ## Generic list helpers -/

/-- Zipping a list with its image under `f` pairs each element with its
image. -/
theorem mem_zip_map_self {α β : Type} (f : α → β) :
    ∀ (xs : List α) (p : α × β), p ∈ xs.zip (xs.map f) → p.2 = f p.1 := by
  intro xs
  induction xs with
  | nil => intro p hp; simp at hp
  | cons x xs ih =>
    intro p hp
    rw [List.map_cons, List.zip_cons_cons, List.mem_cons] at hp
    rcases hp with rfl | hp
    · rfl
    · exact ih p hp

/-- Membership in a zip survives mapping the left list. -/
theorem mem_zip_map_left {α β γ : Type} (f : α → γ) :
    ∀ (xs : List α) (zs : List β) (p : α × β),
      p ∈ xs.zip zs → (f p.1, p.2) ∈ (xs.map f).zip zs := by
  intro xs
  induction xs with
  | nil => intro zs p hp; simp at hp
  | cons x xs ih =>
    intro zs p hp
    cases zs with
    | nil => simp at hp
    | cons z zs =>
      rw [List.zip_cons_cons, List.mem_cons] at hp
      rcases hp with rfl | hp
      · exact List.mem_cons_self _ _
      · exact List.mem_cons_of_mem _ (ih zs p hp)

/-- The length of a `flatMap` whose pieces all have length `c`. -/
theorem flatMap_length_const {α β : Type} (f : α → List β) (c : Nat) :
    ∀ (l : List α), (∀ x ∈ l, (f x).length = c) → (l.flatMap f).length = c * l.length := by
  intro l
  induction l with
  | nil => intro _; simp
  | cons x xs ih =>
    intro h
    have hx := h x (List.mem_cons_self _ _)
    have hxs := ih fun y hy => h y (List.mem_cons_of_mem _ hy)
    simp [List.flatMap_cons, hx, hxs, Nat.mul_succ, Nat.add_comm]

/-! ## Encoder length lemmas -/

/-- `encodeWord` emits exactly `w` bytes. -/
theorem encodeWord_length (le : Bool) (w v : Nat) : (encodeWord le w v).length = w := by
  cases le <;> simp [encodeWord]

/-- The serialised ELF header has the context-dependent header size. -/
theorem encodeElfHeader_length (is64 le : Bool) (h : ElfHeader) :
    (encodeElfHeader is64 le h).length = ehdrSize is64 := by
  cases is64 <;>
    simp [encodeElfHeader, ehdrSize, encodeWord_length, List.length_take,
      List.length_append]

/-- The serialised program header has the context-dependent entry size. -/
theorem encodeProgramHeader_length (is64 le : Bool) (p : ProgramHeader) :
    (encodeProgramHeader is64 le p).length = phdrSize is64 := by
  cases is64 <;> simp [encodeProgramHeader, phdrSize, encodeWord_length]

/-- The serialised section header has the context-dependent entry size. -/
theorem encodeSectionHeader_length (is64 le : Bool) (s : SectionHeader) :
    (encodeSectionHeader is64 le s).length = shdrSize is64 := by
  cases is64 <;> simp [encodeSectionHeader, shdrSize, encodeWord_length]

/-! ## Classification lemmas -/

/-- Classification touches nothing but `sh_type`. -/
theorem classifySection_sameExceptType (st : Nat → Option String) (s : SectionHeader) :
    sameExceptType s (classifySection st s) := by
  unfold classifySection
  split
  · exact ⟨rfl, rfl, rfl, rfl, rfl, rfl, rfl, rfl, rfl⟩
  · split
    · split
      · exact ⟨rfl, rfl, rfl, rfl, rfl, rfl, rfl, rfl, rfl⟩
      · exact ⟨rfl, rfl, rfl, rfl, rfl, rfl, rfl, rfl, rfl⟩
    · exact ⟨rfl, rfl, rfl, rfl, rfl, rfl, rfl, rfl, rfl⟩

/-- When classification changes a section's type, the new type is
`SHT_NOBITS`. -/
theorem classifySection_changed (st : Nat → Option String) (s : SectionHeader)
    (h : (classifySection st s).sh_type ≠ s.sh_type) :
    (classifySection st s).sh_type = SHT_NOBITS := by
  by_cases h1 : s.sh_type = SHT_NOBITS ∨ s.sh_type = SHT_SYMTAB ∨ s.sh_type = SHT_STRTAB
  · exact absurd (by simp [classifySection, h1]) h
  · cases hst : st s.sh_name with
    | none => exact absurd (by simp [classifySection, h1, hst]) h
    | some n =>
      cases hb : (strStartsWith n ".debug" || n == ".comment") with
      | true => exact absurd (by simp [classifySection, h1, hst, hb]) h
      | false => simp [classifySection, h1, hst, hb]

/-- Exact characterisation of the classification of one section: it is kept
unchanged precisely when the spec's KEEP condition holds or its name fails
to resolve; otherwise it is retyped to `SHT_NOBITS`. -/
theorem classifySection_eq_self_iff (st : Nat → Option String) (s : SectionHeader) :
    (classifySection st s = s ↔ (specKeepCond st s ∨ st s.sh_name = none))
    ∧ (¬ (specKeepCond st s ∨ st s.sh_name = none) →
        classifySection st s = { s with sh_type := SHT_NOBITS }) := by
  by_cases h1 : s.sh_type = SHT_NOBITS ∨ s.sh_type = SHT_SYMTAB ∨ s.sh_type = SHT_STRTAB
  · have hkeep : classifySection st s = s := by simp [classifySection, h1]
    have hcond : specKeepCond st s ∨ st s.sh_name = none := by
      left
      unfold specKeepCond
      tauto
    exact ⟨by rw [hkeep]; exact iff_of_true rfl hcond, fun hc => absurd hcond hc⟩
  · have hne : s.sh_type ≠ SHT_NOBITS := fun hc => h1 (Or.inl hc)
    cases hst : st s.sh_name with
    | none =>
      have hkeep : classifySection st s = s := by simp [classifySection, h1, hst]
      exact ⟨by rw [hkeep]; exact iff_of_true rfl (Or.inr rfl),
             fun hc => absurd (Or.inr rfl) hc⟩
    | some n =>
      cases hb : (strStartsWith n ".debug" || n == ".comment") with
      | true =>
        have hkeep : classifySection st s = s := by simp [classifySection, h1, hst, hb]
        have hcond : specKeepCond st s := by
          refine Or.inr (Or.inr (Or.inr ⟨n, hst, ?_⟩))
          rcases Bool.or_eq_true_iff.mp hb with hc | hc
          · exact Or.inl hc
          · exact Or.inr (by simpa using hc)
        exact ⟨by rw [hkeep]; exact iff_of_true rfl (Or.inl hcond),
               fun hc => absurd (Or.inl hcond) hc⟩
      | false =>
        have hdem : classifySection st s = { s with sh_type := SHT_NOBITS } := by
          simp [classifySection, h1, hst, hb]
        have hncond : ¬ (specKeepCond st s ∨ (some n : Option String) = none) := by
          rintro (hc | hc)
          · rcases hc with hc | hc | hc | ⟨m, hm, hcond2⟩
            · exact h1 (Or.inl hc)
            · exact h1 (Or.inr (Or.inl hc))
            · exact h1 (Or.inr (Or.inr hc))
            · rw [hst] at hm
              injection hm with hm
              subst hm
              rcases hcond2 with hc2 | hc2
              · rw [hc2] at hb; simp at hb
              · subst hc2; simp at hb
          · cases hc
        refine ⟨?_, fun _ => hdem⟩
        rw [hdem]
        refine iff_of_false ?_ hncond
        intro he
        exact hne ((congrArg SectionHeader.sh_type he).symm)

/-- The Boolean form of the spec's KEEP condition agrees with the
propositional form. -/
theorem specKeepB_eq_true_iff (st : Nat → Option String) (s : SectionHeader) :
    specKeepB st s = true ↔ specKeepCond st s := by
  cases hst : st s.sh_name with
  | none => simp [specKeepB, specKeepCond, hst, or_assoc]
  | some n => simp [specKeepB, specKeepCond, hst, or_assoc]

/-! ## Section-data writing lemmas -/

/-- Inversion for the copy loop on a non-empty section list. -/
theorem writeSectionData_cons_inv {buffer : List Nat} {cur : Nat} {s : SectionHeader}
    {rest : List SectionHeader} {bs : List Nat} {ss : List SectionHeader}
    (h : writeSectionData buffer cur (s :: rest) = some (bs, ss)) :
    (s.sh_type = SHT_NOBITS ∧ ∃ bs2 ss2,
        writeSectionData buffer cur rest = some (bs2, ss2) ∧ bs = bs2 ∧ ss = s :: ss2)
    ∨ (s.sh_type ≠ SHT_NOBITS ∧ s.sh_offset + s.sh_size ≤ buffer.length ∧ ∃ bs2 ss2,
        writeSectionData buffer (cur + s.sh_size) rest = some (bs2, ss2)
        ∧ bs = (buffer.drop s.sh_offset).take s.sh_size ++ bs2
        ∧ ss = { s with sh_offset := cur } :: ss2) := by
  by_cases ht : s.sh_type = SHT_NOBITS
  · left
    refine ⟨ht, ?_⟩
    simp only [writeSectionData] at h
    rw [if_neg (not_not_intro ht)] at h
    cases hrec : writeSectionData buffer cur rest with
    | none => rw [hrec] at h; exact absurd h (by simp)
    | some pr =>
      obtain ⟨bs2, ss2⟩ := pr
      rw [hrec] at h
      have h2 : some (bs2, s :: ss2) = some (bs, ss) := h
      injection h2 with h3
      injection h3 with h4 h5
      refine ⟨bs2, ss2, rfl, ?_, ?_⟩
      · exact h4.symm
      · exact h5.symm
  · right
    by_cases hbnd : s.sh_offset + s.sh_size ≤ buffer.length
    · refine ⟨ht, hbnd, ?_⟩
      simp only [writeSectionData] at h
      rw [if_pos ht, if_pos hbnd] at h
      cases hrec : writeSectionData buffer (cur + s.sh_size) rest with
      | none => rw [hrec] at h; exact absurd h (by simp)
      | some pr =>
        obtain ⟨bs2, ss2⟩ := pr
        rw [hrec] at h
        have h2 : some ((buffer.drop s.sh_offset).take s.sh_size ++ bs2,
            { s with sh_offset := cur } :: ss2) = some (bs, ss) := h
        injection h2 with h3
        injection h3 with h4 h5
        refine ⟨bs2, ss2, rfl, ?_, ?_⟩
        · exact h4.symm
        · exact h5.symm
    · exfalso
      simp only [writeSectionData] at h
      rw [if_pos ht, if_neg hbnd] at h
      exact absurd h (by simp)

/-- Inversion for the copy loop on the empty section list. -/
theorem writeSectionData_nil_inv {buffer : List Nat} {cur : Nat} {bs : List Nat}
    {ss : List SectionHeader}
    (h : writeSectionData buffer cur [] = some (bs, ss)) : bs = [] ∧ ss = [] := by
  have h2 : some (([] : List Nat), ([] : List SectionHeader)) = some (bs, ss) := h
  injection h2 with h3
  injection h3 with h4 h5
  exact ⟨h4.symm, h5.symm⟩

/-- The copy loop returns as many section headers as it was given. -/
theorem writeSectionData_length (buffer : List Nat) :
    ∀ (shs : List SectionHeader) (cur : Nat) (bs : List Nat) (ss : List SectionHeader),
      writeSectionData buffer cur shs = some (bs, ss) → ss.length = shs.length := by
  intro shs
  induction shs with
  | nil =>
    intro cur bs ss h
    rw [(writeSectionData_nil_inv h).2]
  | cons s rest ih =>
    intro cur bs ss h
    rcases writeSectionData_cons_inv h with
      ⟨ht, bs2, ss2, hrec, hbs, hss⟩ | ⟨ht, hbnd, bs2, ss2, hrec, hbs, hss⟩
    · rw [hss]; simp [ih cur bs2 ss2 hrec]
    · rw [hss]; simp [ih (cur + s.sh_size) bs2 ss2 hrec]

/-- The copy loop emits exactly the summed sizes of the payload-carrying
sections. -/
theorem writeSectionData_bytes_length (buffer : List Nat) :
    ∀ (shs : List SectionHeader) (cur : Nat) (bs : List Nat) (ss : List SectionHeader),
      writeSectionData buffer cur shs = some (bs, ss) → bs.length = keepPayloadSize shs := by
  intro shs
  induction shs with
  | nil =>
    intro cur bs ss h
    rw [(writeSectionData_nil_inv h).1]
    rfl
  | cons s rest ih =>
    intro cur bs ss h
    rcases writeSectionData_cons_inv h with
      ⟨ht, bs2, ss2, hrec, hbs, hss⟩ | ⟨ht, hbnd, bs2, ss2, hrec, hbs, hss⟩
    · rw [hbs]; simp [keepPayloadSize, ht, ih cur bs2 ss2 hrec]
    · have hslice : ((buffer.drop s.sh_offset).take s.sh_size).length = s.sh_size := by
        rw [List.length_take, List.length_drop]
        omega
      rw [hbs]
      simp [keepPayloadSize, ht, List.length_append, hslice,
        ih (cur + s.sh_size) bs2 ss2 hrec]

/-- The copy loop touches nothing but `sh_offset`, and leaves the offset of
`SHT_NOBITS` sections alone. -/
theorem writeSectionData_pointwise (buffer : List Nat) :
    ∀ (shs : List SectionHeader) (cur : Nat) (bs : List Nat) (ss : List SectionHeader),
      writeSectionData buffer cur shs = some (bs, ss) →
      ∀ p ∈ shs.zip ss,
        sameExceptOffset p.1 p.2 ∧ (p.1.sh_type = SHT_NOBITS → p.2.sh_offset = p.1.sh_offset) := by
  intro shs
  induction shs with
  | nil =>
    intro cur bs ss h p hp
    rw [(writeSectionData_nil_inv h).2] at hp
    simp at hp
  | cons s rest ih =>
    intro cur bs ss h p hp
    rcases writeSectionData_cons_inv h with
      ⟨ht, bs2, ss2, hrec, hbs, hss⟩ | ⟨ht, hbnd, bs2, ss2, hrec, hbs, hss⟩
    · rw [hss, List.zip_cons_cons, List.mem_cons] at hp
      rcases hp with rfl | hp
      · exact ⟨⟨rfl, rfl, rfl, rfl, rfl, rfl, rfl, rfl, rfl⟩, fun _ => rfl⟩
      · exact ih cur bs2 ss2 hrec p hp
    · rw [hss, List.zip_cons_cons, List.mem_cons] at hp
      rcases hp with rfl | hp
      · exact ⟨⟨rfl, rfl, rfl, rfl, rfl, rfl, rfl, rfl, rfl⟩, fun habs => absurd habs ht⟩
      · exact ih (cur + s.sh_size) bs2 ss2 hrec p hp

/-- The copy loop panics (models as `none`) whenever some payload-carrying
section's declared range reaches past the end of the input buffer. -/
theorem writeSectionData_oob (buffer : List Nat) :
    ∀ (shs : List SectionHeader) (cur : Nat),
      (∃ s ∈ shs, s.sh_type ≠ SHT_NOBITS ∧ buffer.length < s.sh_offset + s.sh_size) →
      writeSectionData buffer cur shs = none := by
  intro shs
  induction shs with
  | nil =>
    intro cur hex
    simp at hex
  | cons s rest ih =>
    intro cur hex
    obtain ⟨s0, hs0mem, hs0t, hs0b⟩ := hex
    rw [List.mem_cons] at hs0mem
    rcases hs0mem with rfl | hmem
    · simp only [writeSectionData]
      rw [if_pos hs0t, if_neg (by omega)]
    · by_cases ht : s.sh_type = SHT_NOBITS
      · simp only [writeSectionData]
        rw [if_neg (not_not_intro ht), ih cur ⟨s0, hmem, hs0t, hs0b⟩]
      · by_cases hbnd : s.sh_offset + s.sh_size ≤ buffer.length
        · simp only [writeSectionData]
          rw [if_pos ht, if_pos hbnd, ih (cur + s.sh_size) ⟨s0, hmem, hs0t, hs0b⟩]
        · simp only [writeSectionData]
          rw [if_pos ht, if_neg hbnd]

/-- The central slice property of the copy loop: place the emitted bytes
after any prefix whose length is the starting position, and every
payload-carrying section's rewritten offset points at an exact copy of its
input payload, regardless of what follows the emitted bytes. -/
theorem writeSectionData_slice (buffer : List Nat) :
    ∀ (shs : List SectionHeader) (cur : Nat) (bs : List Nat) (ss : List SectionHeader)
      (pre suf : List Nat),
      writeSectionData buffer cur shs = some (bs, ss) → pre.length = cur →
      ∀ p ∈ shs.zip ss, p.2.sh_type ≠ SHT_NOBITS →
        ((pre ++ (bs ++ suf)).drop p.2.sh_offset).take p.2.sh_size
          = (buffer.drop p.1.sh_offset).take p.1.sh_size := by
  intro shs
  induction shs with
  | nil =>
    intro cur bs ss pre suf h hpre p hp hkp
    rw [(writeSectionData_nil_inv h).2] at hp
    simp at hp
  | cons s rest ih =>
    intro cur bs ss pre suf h hpre p hp hkp
    rcases writeSectionData_cons_inv h with
      ⟨ht, bs2, ss2, hrec, hbs, hss⟩ | ⟨ht, hbnd, bs2, ss2, hrec, hbs, hss⟩
    · rw [hbs]
      rw [hss, List.zip_cons_cons, List.mem_cons] at hp
      rcases hp with rfl | hp
      · exact absurd ht hkp
      · exact ih cur bs2 ss2 pre suf hrec hpre p hp hkp
    · have hslice : ((buffer.drop s.sh_offset).take s.sh_size).length = s.sh_size := by
        rw [List.length_take, List.length_drop]
        omega
      rw [hbs]
      rw [hss, List.zip_cons_cons, List.mem_cons] at hp
      rcases hp with rfl | hp
      · show ((pre ++ (((buffer.drop s.sh_offset).take s.sh_size ++ bs2) ++ suf)).drop cur).take
            s.sh_size = (buffer.drop s.sh_offset).take s.sh_size
        simp only [List.append_assoc]
        rw [List.drop_left' hpre, List.take_left' hslice]
      · have hpre2 : (pre ++ (buffer.drop s.sh_offset).take s.sh_size).length
            = cur + s.sh_size := by
          rw [List.length_append, hpre, hslice]
        have := ih (cur + s.sh_size) bs2 ss2
          (pre ++ (buffer.drop s.sh_offset).take s.sh_size) suf hrec hpre2 p hp hkp
        simpa only [List.append_assoc] using this

/-! ## Splitter characterisation -/

/-- Forward characterisation of a successful run of the splitter. -/
theorem generateDebugElf_spec {elf : Elf} {ds : DebugSplit}
    (h : generateDebugElf elf = some ds) :
    ∃ payload,
      writeSectionData elf.buffer (dataOff elf)
          (classifySections elf.shdr_strtab elf.section_headers)
        = some (payload, ds.sectionHeaders)
      ∧ ds.header = { elf.header with
            e_phoff := elfHeaderMemSize
            e_shoff := dataOff elf + keepPayloadSize (classifySections elf.shdr_strtab elf.section_headers) }
      ∧ ds.programHeaders = elf.program_headers
      ∧ ds.fileBytes =
          encodeElfHeader elf.is_64 elf.little_endian ds.header
            ++ (elf.program_headers.flatMap (encodeProgramHeader elf.is_64 elf.little_endian)
                ++ (payload
                    ++ ds.sectionHeaders.flatMap
                        (encodeSectionHeader elf.is_64 elf.little_endian))) := by
  simp only [generateDebugElf] at h
  cases hw : writeSectionData elf.buffer (dataOff elf)
      (classifySections elf.shdr_strtab elf.section_headers) with
  | none =>
    rw [hw] at h
    exact absurd h (by simp)
  | some pr =>
    obtain ⟨payload, finalSections⟩ := pr
    rw [hw] at h
    injection h with h3
    subst h3
    refine ⟨payload, rfl, rfl, rfl, ?_⟩
    simp [List.append_assoc]

/-- A failing copy loop fails the whole splitter. -/
theorem generateDebugElf_none {elf : Elf}
    (hw : writeSectionData elf.buffer (dataOff elf)
        (classifySections elf.shdr_strtab elf.section_headers) = none) :
    generateDebugElf elf = none := by
  simp only [generateDebugElf]
  rw [hw]

/-! ## A drop helper for the file layout -/

/-- Dropping the combined length of the first three blocks of a four-block
concatenation leaves the fourth. -/
theorem drop_triple {α : Type} (a b c d : List α) (n : Nat)
    (h : a.length + (b.length + c.length) = n) :
    (a ++ (b ++ (c ++ d))).drop n = d := by
  have h2 : (a ++ (b ++ c)).length = n := by
    simp only [List.length_append]
    omega
  rw [show a ++ (b ++ (c ++ d)) = (a ++ (b ++ c)) ++ d by simp [List.append_assoc]]
  exact List.drop_left' h2

/-! ## Claim theorems: the debug splitter -/

/-- C1 (counterexample): the claim "a section is KEEP exactly when it is
no-payload / symtab / strtab / named `.debug*` or `.comment`, and every
other section is demoted" is false on the code: a `SHT_PROGBITS` section
whose name index does not resolve in the string table satisfies none of the
KEEP conditions, yet the classification loop leaves it untouched. -/
theorem specClassifyClaim_false : ¬ specClassifyClaim := by
  intro h
  have hm : (cexSec, cexSec) ∈ [cexSec].zip (classifySections strtabNone [cexSec]) := by
    decide
  have h2 := (h strtabNone [cexSec] (cexSec, cexSec) hm).2
  have hnk : ¬ specKeepCond strtabNone cexSec := by
    simp [specKeepCond, strtabNone, cexSec, SHT_NOBITS, SHT_SYMTAB, SHT_STRTAB]
  have h3 := congrArg SectionHeader.sh_type (h2 hnk)
  simp [cexSec, SHT_NOBITS] at h3

/-- C1 (amended): in original order, a section is kept unchanged exactly
when the spec's KEEP condition holds or its name fails to resolve in the
section-name string table; every section satisfying neither is demoted by
retyping it to the no-payload type, all other fields untouched. -/
theorem classify_keep_characterization (st : Nat → Option String)
    (shs : List SectionHeader) :
    ∀ p ∈ shs.zip (classifySections st shs),
      (p.2 = p.1 ↔ (specKeepCond st p.1 ∨ st p.1.sh_name = none))
      ∧ (¬ (specKeepCond st p.1 ∨ st p.1.sh_name = none) →
          p.2 = { p.1 with sh_type := SHT_NOBITS }) := by
  intro p hp
  have h2 : p.2 = classifySection st p.1 := mem_zip_map_self _ _ _ hp
  rw [h2]
  exact classifySection_eq_self_iff st p.1

/-- Witness for the amended C1 at a concrete demoted `.text` section. -/
theorem classify_keep_characterization_witness :
    ((exSec0, exSec0D) ∈ [exSec0].zip (classifySections exStrtab [exSec0]))
    ∧ ((exSec0D = exSec0 ↔ (specKeepCond exStrtab exSec0 ∨ exStrtab exSec0.sh_name = none))
       ∧ (¬ (specKeepCond exStrtab exSec0 ∨ exStrtab exSec0.sh_name = none) →
          exSec0D = { exSec0 with sh_type := SHT_NOBITS })) :=
  ⟨by decide,
   classify_keep_characterization exStrtab [exSec0] (exSec0, exSec0D) (by decide)⟩

/-- C2 (counterexample): on a 32-bit image the written program-header-table
offset field is 64 (the in-memory struct size) while the table itself sits
at byte 52 right after the serialised header, and the section-header-table
offset written by the code (52 here) differs from the spec's formula (68
here, because the spec's KEEP set counts a non-empty `SHT_NOBITS` section's
declared size). -/
theorem specTableOffsetsClaim_false :
    ¬ specTableOffsetsClaim
    ∧ cexDs32.header.e_phoff = 64 ∧ ehdrSize cex32.is_64 = 52
    ∧ cexDs32.header.e_shoff = 52
    ∧ ehdrSize cex32.is_64 + phdrSize cex32.is_64 * cex32.program_headers.length
        + specKeepSizeSum cex32.shdr_strtab cex32.section_headers = 68 := by
  refine ⟨?_, by decide, by decide, by decide, by decide⟩
  intro h
  exact absurd (h cex32 cexDs32 rfl).1 (by decide)

/-- C2 (amended): the program-header-table offset field is always written as
64 (the in-memory size of the unified header struct), which equals the
actual position of the program-header table - immediately after the
serialised header - exactly for 64-bit images; the section-header-table
offset field equals header size + program-header-table size + the summed
sizes of the sections that still carry payload after classification, and it
points exactly at the serialised section-header table. -/
theorem debug_table_offsets (elf : Elf) (ds : DebugSplit)
    (h : generateDebugElf elf = some ds) :
    ds.header.e_phoff = elfHeaderMemSize
    ∧ (elf.is_64 = true → ds.header.e_phoff = ehdrSize elf.is_64)
    ∧ ((ds.fileBytes.drop (ehdrSize elf.is_64)).take
          (phdrSize elf.is_64 * elf.program_headers.length)
        = elf.program_headers.flatMap (encodeProgramHeader elf.is_64 elf.little_endian))
    ∧ ds.header.e_shoff
        = ehdrSize elf.is_64 + phdrSize elf.is_64 * elf.program_headers.length
          + keepPayloadSize (classifySections elf.shdr_strtab elf.section_headers)
    ∧ ds.fileBytes.drop ds.header.e_shoff
        = ds.sectionHeaders.flatMap (encodeSectionHeader elf.is_64 elf.little_endian) := by
  obtain ⟨payload, hw, hhdr, hph, hfb⟩ := generateDebugElf_spec h
  have hhb : (encodeElfHeader elf.is_64 elf.little_endian ds.header).length
      = ehdrSize elf.is_64 := encodeElfHeader_length _ _ _
  have hpb : (elf.program_headers.flatMap
        (encodeProgramHeader elf.is_64 elf.little_endian)).length
      = phdrSize elf.is_64 * elf.program_headers.length :=
    flatMap_length_const _ _ _ (fun x _ => encodeProgramHeader_length _ _ x)
  have hpay : payload.length
      = keepPayloadSize (classifySections elf.shdr_strtab elf.section_headers) :=
    writeSectionData_bytes_length _ _ _ _ _ hw
  have h5 : ds.header.e_shoff
      = dataOff elf + keepPayloadSize (classifySections elf.shdr_strtab elf.section_headers) := by
    rw [hhdr]
  refine ⟨by rw [hhdr], ?_, ?_, ?_, ?_⟩
  · intro h64
    rw [hhdr]
    simp [ehdrSize, h64, elfHeaderMemSize]
  · rw [hfb, List.drop_left' hhb, List.take_left' hpb]
  · rw [h5, dataOff]
  · rw [hfb, h5]
    refine drop_triple _ _ _ _ _ ?_
    simp only [hhb, hpb, hpay, dataOff]
    omega

/-- Witness for the amended C2 on the concrete 64-bit example image. -/
theorem debug_table_offsets_witness :
    generateDebugElf exElf = some exDs
    ∧ exDs.header.e_phoff = elfHeaderMemSize
    ∧ exDs.header.e_shoff
        = ehdrSize exElf.is_64 + phdrSize exElf.is_64 * exElf.program_headers.length
          + keepPayloadSize (classifySections exElf.shdr_strtab exElf.section_headers) :=
  ⟨rfl, (debug_table_offsets exElf exDs rfl).1,
   (debug_table_offsets exElf exDs rfl).2.2.2.1⟩

/-- C3: every payload-carrying section of the output (the KEEP sections that
physically contribute bytes) has, at its recomputed offset in the output
file, exactly the payload bytes the input image holds at that section's
original offset. -/
theorem keep_payload_roundtrip (elf : Elf) (ds : DebugSplit)
    (h : generateDebugElf elf = some ds) :
    ∀ p ∈ elf.section_headers.zip ds.sectionHeaders,
      p.2.sh_type ≠ SHT_NOBITS →
      (ds.fileBytes.drop p.2.sh_offset).take p.2.sh_size
        = (elf.buffer.drop p.1.sh_offset).take p.1.sh_size := by
  obtain ⟨payload, hw, hhdr, hph, hfb⟩ := generateDebugElf_spec h
  have hhb : (encodeElfHeader elf.is_64 elf.little_endian ds.header).length
      = ehdrSize elf.is_64 := encodeElfHeader_length _ _ _
  have hpb : (elf.program_headers.flatMap
        (encodeProgramHeader elf.is_64 elf.little_endian)).length
      = phdrSize elf.is_64 * elf.program_headers.length :=
    flatMap_length_const _ _ _ (fun x _ => encodeProgramHeader_length _ _ x)
  intro p hp hkp
  have hq := mem_zip_map_left (classifySection elf.shdr_strtab) _ _ p hp
  obtain ⟨-, -, -, hoff, hsize, -, -, -, -⟩ :=
    classifySection_sameExceptType elf.shdr_strtab p.1
  have hslice := writeSectionData_slice elf.buffer
    (classifySections elf.shdr_strtab elf.section_headers) (dataOff elf) payload
    ds.sectionHeaders
    (encodeElfHeader elf.is_64 elf.little_endian ds.header
      ++ elf.program_headers.flatMap (encodeProgramHeader elf.is_64 elf.little_endian))
    (ds.sectionHeaders.flatMap (encodeSectionHeader elf.is_64 elf.little_endian))
    hw (by rw [List.length_append, hhb, hpb, dataOff]) (classifySection elf.shdr_strtab p.1, p.2)
    hq hkp
  rw [← hoff, ← hsize] at hslice
  rw [hfb]
  simpa only [List.append_assoc] using hslice

/-- Witness for C3: the `.debug_i` payload of the example image is found
verbatim at the relocated offset of the output. -/
theorem keep_payload_roundtrip_witness :
    generateDebugElf exElf = some exDs
    ∧ ((exSec1, exSec1F) ∈ exElf.section_headers.zip exDs.sectionHeaders)
    ∧ exSec1F.sh_type ≠ SHT_NOBITS
    ∧ (exDs.fileBytes.drop exSec1F.sh_offset).take exSec1F.sh_size
        = (exElf.buffer.drop exSec1.sh_offset).take exSec1.sh_size :=
  ⟨rfl, by decide, by decide,
   keep_payload_roundtrip exElf exDs rfl (exSec1, exSec1F) (by decide) (by decide)⟩

/-- C4: every demoted section (output type differs from input type) carries
the no-payload type in the output, its declared size field is unchanged from
the input, and it contributes zero bytes to the output file: its summand in
the payload-size sum is zero, and the file length is header size +
program-header table + payload of the still-payload-carrying sections +
section-header table only. -/
theorem demoted_sections_inert (elf : Elf) (ds : DebugSplit)
    (h : generateDebugElf elf = some ds) :
    ds.fileBytes.length
      = dataOff elf + keepPayloadSize (classifySections elf.shdr_strtab elf.section_headers)
        + shdrSize elf.is_64 * elf.section_headers.length
    ∧ ∀ p ∈ elf.section_headers.zip ds.sectionHeaders,
        p.2.sh_type ≠ p.1.sh_type →
        p.2.sh_type = SHT_NOBITS ∧ p.2.sh_size = p.1.sh_size
        ∧ (if (classifySection elf.shdr_strtab p.1).sh_type ≠ SHT_NOBITS then
            (classifySection elf.shdr_strtab p.1).sh_size else 0) = 0 := by
  obtain ⟨payload, hw, hhdr, hph, hfb⟩ := generateDebugElf_spec h
  have hhb : (encodeElfHeader elf.is_64 elf.little_endian ds.header).length
      = ehdrSize elf.is_64 := encodeElfHeader_length _ _ _
  have hpb : (elf.program_headers.flatMap
        (encodeProgramHeader elf.is_64 elf.little_endian)).length
      = phdrSize elf.is_64 * elf.program_headers.length :=
    flatMap_length_const _ _ _ (fun x _ => encodeProgramHeader_length _ _ x)
  have hpay : payload.length
      = keepPayloadSize (classifySections elf.shdr_strtab elf.section_headers) :=
    writeSectionData_bytes_length _ _ _ _ _ hw
  have hcount : ds.sectionHeaders.length = elf.section_headers.length := by
    have h2 := writeSectionData_length _ _ _ _ _ hw
    simpa [classifySections] using h2
  have hsb : (ds.sectionHeaders.flatMap
        (encodeSectionHeader elf.is_64 elf.little_endian)).length
      = shdrSize elf.is_64 * elf.section_headers.length := by
    rw [flatMap_length_const _ _ _ (fun x _ => encodeSectionHeader_length _ _ x), hcount]
  constructor
  · rw [hfb]
    simp only [List.length_append, hhb, hpb, hpay, hsb, dataOff]
    omega
  · intro p hp hne
    have hq := mem_zip_map_left (classifySection elf.shdr_strtab) _ _ p hp
    obtain ⟨hso, htype⟩ := writeSectionData_pointwise _ _ _ _ _ hw _ hq
    obtain ⟨-, hty2, -, -, hsz2, -, -, -, -⟩ := hso
    obtain ⟨-, -, -, -, hsize1, -, -, -, -⟩ :=
      classifySection_sameExceptType elf.shdr_strtab p.1
    have hchanged : (classifySection elf.shdr_strtab p.1).sh_type ≠ p.1.sh_type := by
      rw [hty2]
      exact hne
    have hnob := classifySection_changed elf.shdr_strtab p.1 hchanged
    refine ⟨by rw [← hty2, hnob], by rw [← hsz2, ← hsize1], ?_⟩
    rw [if_neg (not_not_intro hnob)]

/-- C5: the output keeps the program headers verbatim (same count, same
content), keeps the section-header count, and each output section header
corresponds in order to its input header, agreeing on every field other
than the possibly demoted type and the possibly recomputed offset.  The
serialised program-header table sits immediately after the header. -/
theorem headers_preserved (elf : Elf) (ds : DebugSplit)
    (h : generateDebugElf elf = some ds) :
    ds.programHeaders = elf.program_headers
    ∧ ds.sectionHeaders.length = elf.section_headers.length
    ∧ ∀ p ∈ elf.section_headers.zip ds.sectionHeaders, sameExceptTypeOffset p.1 p.2 := by
  obtain ⟨payload, hw, hhdr, hph, hfb⟩ := generateDebugElf_spec h
  refine ⟨hph, ?_, ?_⟩
  · have h2 := writeSectionData_length _ _ _ _ _ hw
    simpa [classifySections] using h2
  · intro p hp
    have hq := mem_zip_map_left (classifySection elf.shdr_strtab) _ _ p hp
    obtain ⟨hso, -⟩ := writeSectionData_pointwise _ _ _ _ _ hw _ hq
    obtain ⟨hn2, -, hf2, ha2, hs2, hl2, hi2, hal2, he2⟩ := hso
    obtain ⟨hn1, hf1, ha1, -, hs1, hl1, hi1, hal1, he1⟩ :=
      classifySection_sameExceptType elf.shdr_strtab p.1
    exact ⟨hn1.trans hn2, hf1.trans hf2, ha1.trans ha2, hs1.trans hs2,
           hl1.trans hl2, hi1.trans hi2, hal1.trans hal2, he1.trans he2⟩

/-- Witness for C5 on the example image. -/
theorem headers_preserved_witness :
    generateDebugElf exElf = some exDs
    ∧ exDs.programHeaders = exElf.program_headers
    ∧ exDs.sectionHeaders.length = exElf.section_headers.length :=
  ⟨rfl, (headers_preserved exElf exDs rfl).1, (headers_preserved exElf exDs rfl).2.1⟩

/-- Witness for C4: the demoted `.text` section of the example image keeps
its declared size, is retyped, and contributes nothing. -/
theorem demoted_sections_inert_witness :
    generateDebugElf exElf = some exDs
    ∧ ((exSec0, exSec0D) ∈ exElf.section_headers.zip exDs.sectionHeaders)
    ∧ exSec0D.sh_type ≠ exSec0.sh_type
    ∧ (exSec0D.sh_type = SHT_NOBITS ∧ exSec0D.sh_size = exSec0.sh_size
        ∧ (if (classifySection exElf.shdr_strtab exSec0).sh_type ≠ SHT_NOBITS then
            (classifySection exElf.shdr_strtab exSec0).sh_size else 0) = 0) :=
  ⟨rfl, by decide, by decide,
   (demoted_sections_inert exElf exDs rfl).2 (exSec0, exSec0D) (by decide) (by decide)⟩

/-- C9: whenever some payload-carrying (KEEP) section declares a range whose
end lies past the input buffer, the copy loop's slice indexing panics -
modelled as the splitter returning `none` instead of an error value. -/
theorem oob_keep_section_panics (elf : Elf)
    (hex : ∃ s ∈ classifySections elf.shdr_strtab elf.section_headers,
        s.sh_type ≠ SHT_NOBITS ∧ elf.buffer.length < s.sh_offset + s.sh_size) :
    generateDebugElf elf = none :=
  generateDebugElf_none (writeSectionData_oob elf.buffer _ (dataOff elf) hex)

/-- Witness for C9: a symbol-table section declaring bytes 10..20 of a
5-byte image makes the splitter panic. -/
theorem oob_keep_section_panics_witness :
    (∃ s ∈ classifySections oobElf.shdr_strtab oobElf.section_headers,
        s.sh_type ≠ SHT_NOBITS ∧ oobElf.buffer.length < s.sh_offset + s.sh_size)
    ∧ generateDebugElf oobElf = none :=
  ⟨by decide, oob_keep_section_panics oobElf (by decide)⟩

/-- C10: every section whose output type is the no-payload type - whether it
already was or was demoted - keeps its input file-offset field unchanged;
only the payload-carrying sections get their offset rewritten. -/
theorem nobits_offsets_unchanged (elf : Elf) (ds : DebugSplit)
    (h : generateDebugElf elf = some ds) :
    ∀ p ∈ elf.section_headers.zip ds.sectionHeaders,
      p.2.sh_type = SHT_NOBITS → p.2.sh_offset = p.1.sh_offset := by
  obtain ⟨payload, hw, hhdr, hph, hfb⟩ := generateDebugElf_spec h
  intro p hp hnb
  have hq := mem_zip_map_left (classifySection elf.shdr_strtab) _ _ p hp
  obtain ⟨hso, hoffkeep⟩ := writeSectionData_pointwise _ _ _ _ _ hw _ hq
  obtain ⟨-, hty2, -, -, -, -, -, -, -⟩ := hso
  obtain ⟨-, -, -, hoff1, -, -, -, -, -⟩ :=
    classifySection_sameExceptType elf.shdr_strtab p.1
  have h2 := hoffkeep (by rw [hty2]; exact hnb)
  rw [h2, ← hoff1]

/-- Witness for C10: the demoted `.text` section of the example image keeps
its stale input offset 0 in the output header. -/
theorem nobits_offsets_unchanged_witness :
    generateDebugElf exElf = some exDs
    ∧ ((exSec0, exSec0D) ∈ exElf.section_headers.zip exDs.sectionHeaders)
    ∧ exSec0D.sh_type = SHT_NOBITS
    ∧ exSec0D.sh_offset = exSec0.sh_offset :=
  ⟨rfl, by decide, by decide,
   nobits_offsets_unchanged exElf exDs rfl (exSec0, exSec0D) (by decide) (by decide)⟩

/-! ## Driver lemmas -/

/-- The event loop packages exactly the qualifying artifact events whose
package id resolves. -/
theorem stepAction_eq_package_iff (pkgs : List Package) (m : Message)
    (pkg : Package) (a : CompilerArtifact) :
    stepAction pkgs m = .package pkg a ↔
      (m = .compilerArtifact a
        ∧ (a.target_kind.contains "bin" || a.target_kind.contains "cdylib") = true
        ∧ pkgs.find? (fun p => p.id == a.package_id) = some pkg) := by
  constructor
  · intro h
    cases m with
    | compilerArtifact a0 =>
      by_cases hqual : (a0.target_kind.contains "bin" || a0.target_kind.contains "cdylib") = true
      · have hqual2 : "bin" ∈ a0.target_kind ∨ "cdylib" ∈ a0.target_kind := by
          simpa using hqual
        cases hfind : pkgs.find? (fun p => p.id == a0.package_id) with
        | some p0 =>
          have h2 : StepAction.package p0 a0 = StepAction.package pkg a := by
            rw [← h]
            simp [stepAction, hqual2, hfind]
          injection h2 with h3 h4
          subst h3
          subst h4
          exact ⟨rfl, hqual, hfind⟩
        | none =>
          have h2 : StepAction.skip = StepAction.package pkg a := by
            rw [← h]
            simp [stepAction, hqual2, hfind]
          cases h2
      · have hqual2 : ¬ ("bin" ∈ a0.target_kind ∨ "cdylib" ∈ a0.target_kind) := by
          simpa using hqual
        have h2 : StepAction.skip = StepAction.package pkg a := by
          rw [← h]
          simp [stepAction, hqual2]
        cases h2
    | compilerMessage r raw =>
      have h2 : StepAction.skip = StepAction.package pkg a := by
        rw [← h]
        simp [stepAction]
      cases h2
    | other =>
      have h2 : StepAction.skip = StepAction.package pkg a := by
        rw [← h]
        simp [stepAction]
      cases h2
  · rintro ⟨rfl, hqual, hfind⟩
    have hqual2 : "bin" ∈ a.target_kind ∨ "cdylib" ∈ a.target_kind := by
      simpa using hqual
    simp [stepAction, hqual2, hfind]

/-- A skipped event only contributes its console output; the loop continues
with an unchanged outcome. -/
theorem processLoop_skip (fs : Filesystem) (fmt : Format) (pkgs : List Package)
    (m : Message) (rest : List Message) (hskip : stepAction pkgs m = .skip) :
    processLoop fs fmt pkgs (m :: rest)
      = (printEffectsOf m ++ (processLoop fs fmt pkgs rest).1,
         (processLoop fs fmt pkgs rest).2) := by
  simp [processLoop, hskip]

/-! ## Claim theorems: the packaging driver -/

/-- C6 (counterexample): with no configuration at the fixed lookup path the
NSP pipeline does not complete: the default descriptor path is the empty
string, `root.join("")` holds no loadable descriptor, and the descriptor
load panics. -/
theorem specMissingConfigClaim_false :
    ¬ specMissingConfigClaim
    ∧ exPkg.metadataNsp = none
    ∧ (nspPipeline exFsEmpty exPkg exQualArtifact).2 = none := by
  refine ⟨?_, rfl, by decide⟩
  intro h
  obtain ⟨b, hb⟩ := ((h exFsEmpty exPkg exQualArtifact exFile0 rfl rfl).2 rfl).2
  have hnone : (nspPipeline exFsEmpty exPkg exQualArtifact).2 = none := by decide
  rw [hnone] at hb
  cases hb

/-- C6 (amended): a missing configuration at the fixed lookup path resolves
to the all-default record and is itself never a failure.  With the defaults
the NRO pipeline completes and embeds no asset filesystem, icon or metadata
record; the NSP pipeline proceeds with the default empty descriptor path
and fails at descriptor loading whenever no descriptor file exists at the
package root joined with the empty path. -/
theorem missing_config_defaults (fs : Filesystem) (pkg : Package)
    (a : CompilerArtifact) (file0 : String) (hf : a.filenames.head? = some file0)
    (he : fs.elfValid file0 = true) :
    (pkg.metadataNro = none →
      resolveNroConfig pkg = { romfs := none, icon := none, nacp := none }
      ∧ (nroPipeline fs pkg a).2
          = some (Built.nro (setExtension file0 "nro") none none none))
    ∧ (pkg.metadataNsp = none →
      resolveNspConfig pkg = { npdm := "" }
      ∧ (fs.npdmAt (pathJoin pkg.manifestDir "") = none →
          (nspPipeline fs pkg a).2 = none)) := by
  constructor
  · intro hnro
    have hcfg : resolveNroConfig pkg = { romfs := none, icon := none, nacp := none } := by
      simp [resolveNroConfig, hnro]
    refine ⟨hcfg, ?_⟩
    simp [nroPipeline, hf, hcfg, he]
  · intro hnsp
    have hcfg : resolveNspConfig pkg = { npdm := "" } := by
      simp [resolveNspConfig, hnsp]
    refine ⟨hcfg, ?_⟩
    intro hnone
    simp [nspPipeline, hf, hcfg, hnone]

/-- Witness for the amended C6 on a concrete unconfigured package. -/
theorem missing_config_defaults_witness :
    exQualArtifact.filenames.head? = some exFile0
    ∧ exFsEmpty.elfValid exFile0 = true
    ∧ (nroPipeline exFsEmpty exPkg exQualArtifact).2
        = some (Built.nro (setExtension exFile0 "nro") none none none)
    ∧ (nspPipeline exFsEmpty exPkg exQualArtifact).2 = none :=
  ⟨rfl, rfl,
   ((missing_config_defaults exFsEmpty exPkg exQualArtifact exFile0 rfl rfl).1 rfl).2,
   (((missing_config_defaults exFsEmpty exPkg exQualArtifact exFile0 rfl rfl).2 rfl).2 rfl)⟩

/-- C7: the event loop packages an event exactly when it is an artifact
event whose target kind contains "bin" or "cdylib" and whose package id
resolves; a qualifying artifact with an unknown package id is skipped, a
non-qualifying or non-artifact event is ignored, and a skipped event leaves
the loop's outcome unchanged (no error is raised). -/
theorem resolver_event_filtering (pkgs : List Package) (fs : Filesystem)
    (fmt : Format) (m : Message) (rest : List Message) :
    (∀ pkg a, stepAction pkgs m = .package pkg a →
      m = .compilerArtifact a
      ∧ (a.target_kind.contains "bin" || a.target_kind.contains "cdylib") = true
      ∧ pkgs.find? (fun p => p.id == a.package_id) = some pkg)
    ∧ (∀ a, m = .compilerArtifact a →
        (a.target_kind.contains "bin" || a.target_kind.contains "cdylib") = true →
        pkgs.find? (fun p => p.id == a.package_id) = none →
        stepAction pkgs m = .skip)
    ∧ (∀ a, m = .compilerArtifact a →
        ¬ (a.target_kind.contains "bin" || a.target_kind.contains "cdylib") = true →
        stepAction pkgs m = .skip)
    ∧ ((∀ a, m ≠ .compilerArtifact a) → stepAction pkgs m = .skip)
    ∧ (stepAction pkgs m = .skip →
        (processLoop fs fmt pkgs (m :: rest)).2 = (processLoop fs fmt pkgs rest).2
        ∧ (processLoop fs fmt pkgs (m :: rest)).1
            = printEffectsOf m ++ (processLoop fs fmt pkgs rest).1) := by
  refine ⟨?_, ?_, ?_, ?_, ?_⟩
  · intro pkg a hpa
    exact (stepAction_eq_package_iff pkgs m pkg a).mp hpa
  · rintro a rfl hqual hfind
    have hqual2 : "bin" ∈ a.target_kind ∨ "cdylib" ∈ a.target_kind := by
      simpa using hqual
    simp [stepAction, hqual2, hfind]
  · rintro a rfl hqual
    have hqual2 : ¬ ("bin" ∈ a.target_kind ∨ "cdylib" ∈ a.target_kind) := by
      simpa using hqual
    simp [stepAction, hqual2]
  · intro hna
    cases m with
    | compilerArtifact a0 => exact absurd rfl (hna a0)
    | compilerMessage r raw => simp [stepAction]
    | other => simp [stepAction]
  · intro hskip
    rw [processLoop_skip fs fmt pkgs m rest hskip]
    exact ⟨rfl, rfl⟩

/-- Witness for C7: a qualifying artifact owned by an unknown package is
skipped and the loop's outcome is unchanged. -/
theorem resolver_event_filtering_witness :
    stepAction [exPkg] (.compilerArtifact exUnknownArtifact) = .skip
    ∧ (processLoop exFsEmpty Format.nsp [exPkg]
          [Message.compilerArtifact exUnknownArtifact]).2
        = (processLoop exFsEmpty Format.nsp [exPkg] []).2 :=
  ⟨(resolver_event_filtering [exPkg] exFsEmpty Format.nsp
      (.compilerArtifact exUnknownArtifact) []).2.1 exUnknownArtifact rfl
      (by decide) (by decide),
   ((resolver_event_filtering [exPkg] exFsEmpty Format.nsp
      (.compilerArtifact exUnknownArtifact) []).2.2.2.2 (by decide)).1⟩

/-- C8: when the first positional argument is missing or not one of the two
recognized format names, the driver stops with the usage panic right after
the manifest query: its effect trace holds no toolchain spawn and no file
write - the build subprocess is never spawned on such an invocation. -/
theorem invalid_format_aborts (argv : List String) (pkgs : List Package)
    (fs : Filesystem) (msgs : List Message)
    (h : ∀ f, argv.get? 1 = some f → f ≠ "nsp" ∧ f ≠ "nro") :
    (∃ msg, (mainRun argv pkgs fs msgs).2 = .error (.usage msg))
    ∧ (mainRun argv pkgs fs msgs).1 = [Effect.queryManifest]
    ∧ (∀ args, Effect.spawnToolchain args ∉ (mainRun argv pkgs fs msgs).1)
    ∧ (∀ p, Effect.writeFile p ∉ (mainRun argv pkgs fs msgs).1) := by
  have hsel : ∃ msg, selectFormat (argv.get? 1) = .error msg := by
    cases harg : argv.get? 1 with
    | none => exact ⟨_, rfl⟩
    | some f =>
      obtain ⟨h1, h2⟩ := h f harg
      exact ⟨"Unknown format type (available types: nsp, nro)",
        by simp [selectFormat, h1, h2]⟩
  obtain ⟨msg, hmsg⟩ := hsel
  have hrun : mainRun argv pkgs fs msgs = ([Effect.queryManifest], .error (.usage msg)) := by
    simp only [mainRun, hmsg]
  rw [hrun]
  refine ⟨⟨msg, rfl⟩, rfl, ?_, ?_⟩
  · intro args hmem
    simp at hmem
  · intro p hmem
    simp at hmem

/-- Witness for C8 on the argument vector `["linkle", "elf"]`. -/
theorem invalid_format_aborts_witness :
    exArgvBad.get? 1 = some "elf"
    ∧ (mainRun exArgvBad [] exFsEmpty []).1 = [Effect.queryManifest]
    ∧ Effect.spawnToolchain (xargoArgs exArgvBad) ∉ (mainRun exArgvBad [] exFsEmpty []).1
    ∧ Effect.writeFile "/ws/out.nsp" ∉ (mainRun exArgvBad [] exFsEmpty []).1 :=
  ⟨rfl,
   (invalid_format_aborts exArgvBad [] exFsEmpty []
     (fun f hf => by
       have h2 : (some "elf" : Option String) = some f := hf
       injection h2 with h3
       subst h3
       exact ⟨by decide, by decide⟩)).2.1,
   (invalid_format_aborts exArgvBad [] exFsEmpty []
     (fun f hf => by
       have h2 : (some "elf" : Option String) = some f := hf
       injection h2 with h3
       subst h3
       exact ⟨by decide, by decide⟩)).2.2.1 (xargoArgs exArgvBad),
   (invalid_format_aborts exArgvBad [] exFsEmpty []
     (fun f hf => by
       have h2 : (some "elf" : Option String) = some f := hf
       injection h2 with h3
       subst h3
       exact ⟨by decide, by decide⟩)).2.2.2 "/ws/out.nsp"⟩

end Linkle
